import Mathlib

/-!
Formal model of the conflict-incident scraping pipeline (backend/app of the
`war` repository): keyword relevance classification, casualty-count
extraction, gazetteer-based geocoding with a process-lifetime cache,
location extraction, date parsing, RSS/Atom feed parsing, incident
construction, and title-based deduplication of the aggregated results.

Python strings are modelled as Lean `String`s (operating on their `List Char`
data where convenient); Python `dict`s are modelled as association lists in
insertion order; the stateful geocode cache is threaded explicitly.
External capabilities that are not part of the repository (the `re` regex
engine applied to the compiled casualty patterns, the Nominatim geocoder,
`uuid`, the system clock) are supplied as an explicit environment.
-/

namespace War

/-! ## String primitives (models of Python `str` operations) -/

/-- Model of the Python whitespace class `\s` (ASCII part). -/
def isWs (c : Char) : Bool :=
  c == ' ' || c == '\t' || c == '\n' || c == '\r' || c == '\x0b' || c == '\x0c'

/-- Model of Python `str.strip()` on the character list. -/
def stripL (l : List Char) : List Char :=
  ((l.dropWhile isWs).reverse.dropWhile isWs).reverse

/-- Model of Python `str.strip()`. -/
def pyStrip (s : String) : String :=
  ⟨stripL s.data⟩

/-- Decides whether `pat` starts list `l` (Python slice equality at offset 0). -/
def isPre : List Char → List Char → Bool
  | [], _ => true
  | _ :: _, [] => false
  | a :: p, b :: l => a == b && isPre p l

/-- Decides whether `pat` occurs contiguously inside `l`
(the Python `pat in s` substring test, on character lists). -/
def containsAux (pat : List Char) : List Char → Bool
  | [] => pat.isEmpty
  | l@(_ :: t) => isPre pat l || containsAux pat t

/-- Model of the Python substring test `pat in hay`. -/
def strContains (hay pat : String) : Bool :=
  containsAux pat.data hay.data

/-- Model of Python `str.lower()` (character-wise, ASCII letters). -/
def pyLower (s : String) : String :=
  ⟨s.data.map Char.toLower⟩

/-- Model of Python `str.title()`: a cased character is uppercased when the
previous character is not cased and lowercased otherwise. -/
def titleAux : Bool → List Char → List Char
  | _, [] => []
  | prevCased, c :: t =>
    if c.isAlpha then (if prevCased then c.toLower else c.toUpper) :: titleAux true t
    else c :: titleAux false t

/-- Model of Python `str.title()`. -/
def pyTitle (s : String) : String :=
  ⟨titleAux false s.data⟩

/-! ## Keyword configuration (config.py) -/

/-- `CONFLICT_KEYWORDS` from `app/config.py`, in source order. -/
def CONFLICT_KEYWORDS : List String :=
  ["bomb", "bombing", "strike", "airstrike", "air strike",
   "missile", "explosion", "shelling", "artillery", "blast",
   "drone strike", "raid", "killed", "casualties",
   "offensive", "military operation",
   "attack", "attacked", "bombardment", "target", "targeted",
   "destroy", "destroyed", "combat", "battle",
   "cruise missile", "ballistic missile", "intercepted",
   "drone", "warplane", "fighter jet", "sortie",
   "warfare", "strikes", "bombings", "rockets", "rocket",
   "weapons", "munitions", "warhead", "detonation",
   "killing", "deaths", "dead", "fatalities"]

/-- `IRAN_KEYWORDS` from `app/config.py`, in source order. -/
def IRAN_KEYWORDS : List String :=
  ["iran", "iranian", "tehran", "isfahan", "tabriz", "shiraz", "mashhad",
   "ahvaz", "kermanshah", "qom", "karaj", "bushehr", "bandar abbas",
   "persian gulf", "strait of hormuz", "khuzestan", "kurdistan",
   "irgc", "revolutionary guard",
   "parchin", "natanz", "fordow", "arak",
   "abadan", "dezful", "khorramshahr", "hamadan",
   "rasht", "kerman", "yazd", "ardabil", "zahedan",
   "gorgan", "sari", "semnan", "birjand", "ilam",
   "sanandaj", "khorramabad",
   "persian", "islamic republic",
   "khamenei", "rouhani", "raisi",
   "quds force", "basij",
   "esfahan", "khoramshahr", "bandar-abbas",
   "chabahar", "bam", "bojnurd", "zanjan", "urmia"]

/-! ## Relevance classifier (`BaseScraper.is_relevant` / `_is_relevant`) -/

/-- Embedding of `is_relevant(text, title)`: lowercase the concatenation
`f"{title} {text}"` and require a substring hit from each keyword set. -/
def is_relevant (text : String) (title : String) : Bool :=
  let combined := pyLower (title ++ " " ++ text)
  CONFLICT_KEYWORDS.any (fun kw => strContains combined kw) &&
    IRAN_KEYWORDS.any (fun kw => strContains combined kw)

/-! ## Gazetteer and geocoding (`app/geocoder.py`) -/

/-- Coordinates are modelled as exact rationals (the Python floats in the
static table are all short decimal literals, represented exactly). -/
abbrev Coord := ℚ × ℚ

/-- `KNOWN_LOCATIONS` from `app/geocoder.py`, in dict insertion order. -/
def KNOWN_LOCATIONS : List (String × Coord) :=
  [("tehran", (35.6892, 51.3890)),
   ("isfahan", (32.6546, 51.6680)),
   ("esfahan", (32.6546, 51.6680)),
   ("tabriz", (38.0800, 46.2919)),
   ("shiraz", (29.5918, 52.5837)),
   ("mashhad", (36.2605, 59.6168)),
   ("ahvaz", (31.3183, 48.6706)),
   ("kermanshah", (34.3142, 47.0650)),
   ("qom", (34.6401, 50.8764)),
   ("karaj", (35.8400, 50.9391)),
   ("bushehr", (28.9234, 50.8203)),
   ("bandar abbas", (27.1865, 56.2808)),
   ("bandar-abbas", (27.1865, 56.2808)),
   ("rasht", (37.2808, 49.5832)),
   ("kerman", (30.2839, 57.0834)),
   ("hamadan", (34.7990, 48.5150)),
   ("arak", (34.0917, 49.6892)),
   ("yazd", (31.8974, 54.3569)),
   ("ardabil", (38.2498, 48.2933)),
   ("sanandaj", (35.3219, 46.9862)),
   ("zahedan", (29.4963, 60.8629)),
   ("khorramabad", (33.4878, 48.3558)),
   ("birjand", (32.8663, 59.2211)),
   ("ilam", (33.6374, 46.4227)),
   ("gorgan", (36.8427, 54.4344)),
   ("sari", (36.5633, 53.0601)),
   ("semnan", (35.5769, 53.3975)),
   ("khuzestan", (31.4360, 49.0413)),
   ("abadan", (30.3392, 48.3043)),
   ("dezful", (32.3814, 48.4016)),
   ("khorramshahr", (30.4265, 48.1714)),
   ("khoramshahr", (30.4265, 48.1714)),
   ("chabahar", (25.2919, 60.6430)),
   ("bam", (29.1060, 58.3569)),
   ("bojnurd", (37.4747, 57.3290)),
   ("zanjan", (36.6736, 48.4787)),
   ("urmia", (37.5527, 45.0761)),
   ("parchin", (35.5200, 51.7700)),
   ("natanz", (33.5131, 51.9164)),
   ("fordow", (34.7089, 51.0375)),
   ("khondab", (34.3764, 49.2347)),
   ("shahrud", (36.4180, 54.9762)),
   ("imam ali missile base", (34.3500, 47.2500)),
   ("persian gulf", (26.5000, 52.0000)),
   ("strait of hormuz", (26.5667, 56.2500)),
   ("kharg island", (29.2333, 50.3167)),
   ("kish island", (26.5579, 53.9802)),
   ("qeshm island", (26.8300, 55.8900)),
   ("tel aviv", (32.0853, 34.7818)),
   ("haifa", (32.7940, 34.9896)),
   ("nevatim afb", (31.2083, 34.6667)),
   ("nevatim", (31.2083, 34.6667)),
   ("dimona", (31.0700, 35.2100)),
   ("jerusalem", (31.7683, 35.2137)),
   ("beer sheva", (31.2520, 34.7915)),
   ("ashkelon", (31.6688, 34.5743)),
   ("ashdod", (31.8014, 34.6435)),
   ("ramon airbase", (30.7760, 34.6670)),
   ("al asad air base", (33.7856, 42.4411)),
   ("al asad", (33.7856, 42.4411)),
   ("erbil", (36.1912, 44.0119)),
   ("baghdad", (33.3152, 44.3661)),
   ("ain al asad", (33.7856, 42.4411)),
   ("damascus", (33.5138, 36.2765)),
   ("aleppo", (36.2021, 37.1343)),
   ("deir ez-zor", (35.3359, 40.1408)),
   ("beirut", (33.8938, 35.5018)),
   ("al udeid air base", (25.1171, 51.3150)),
   ("al udeid", (25.1171, 51.3150)),
   ("manama", (26.2285, 50.5860)),
   ("al dhafra air base", (24.2481, 54.5472)),
   ("gulf of oman", (25.5000, 57.0000)),
   ("arabian sea", (18.0000, 62.0000))]

/-- The `_geocode_cache` dict: newest binding first, looked up by first match
(equivalent to a Python dict whose updates overwrite). -/
structure GeoState where
  cache : List (String × Option Coord)
deriving DecidableEq

/-- External capabilities used by the pipeline but not defined in the
repository: the `re` regex engine (`findall pattern text` returns the list of
captured groups), the Nominatim geocoder behind the rate limiter (`resolver`,
`none` covers both a falsy result and a raised exception), the current UTC
date and the generated uuid. -/
structure Env where
  findall : String → String → List String
  resolver : String → Option Coord
  today : String
  newId : String

/-- A trivial environment: no regex matches, unresolvable geocoder. -/
def envTriv : Env :=
  { findall := fun _ _ => [], resolver := fun _ => none, today := "", newId := "" }

/-- The `location_name.lower().strip()` normalization of `get_coordinates`. -/
def normalize (name : String) : String :=
  pyStrip (pyLower name)

/-- Embedding of `get_coordinates(location_name)`.  Returns the resolved
coordinates, the updated cache state, and whether the external resolver was
invoked.  Branches in source order: static table, cache, either-direction
substring containment against the static keys, external resolver (whose
failure is cached as `none`). -/
def get_coordinates (env : Env) (st : GeoState) (location_name : String) :
    Option Coord × GeoState × Bool :=
  match KNOWN_LOCATIONS.lookup (normalize location_name) with
  | some c => (some c, st, false)
  | none =>
    match st.cache.lookup (normalize location_name) with
    | some v => (v, st, false)
    | none =>
      match KNOWN_LOCATIONS.find? (fun kc =>
          strContains (normalize location_name) kc.1 ||
            strContains kc.1 (normalize location_name)) with
      | some kc => (some kc.2, ⟨(normalize location_name, some kc.2) :: st.cache⟩, false)
      | none =>
        match env.resolver (location_name ++ ", Iran") with
        | some c => (some c, ⟨(normalize location_name, some c) :: st.cache⟩, true)
        | none => (none, ⟨(normalize location_name, none) :: st.cache⟩, true)

/-- Geocoder states reachable from the initial empty cache by any sequence of
`get_coordinates` calls (the cache is module-private in the source). -/
inductive Reachable : GeoState → Prop
  | init : Reachable ⟨[]⟩
  | step (env : Env) (n : String) {st : GeoState} :
      Reachable st → Reachable (get_coordinates env st n).2.1

/-! ## Casualty extraction (`CASUALTY_PATTERNS`, `WOUNDED_PATTERNS`,
`_extract_count`, `extract_killed`, `extract_wounded`) -/

/-- The source strings of the compiled `CASUALTY_PATTERNS` regexes, in order.
The regex engine itself is the Python standard library; its behaviour is the
`Env.findall` capability. -/
def CASUALTY_PATTERNS : List String :=
  ["(\\d+)\\s*(?:people\\s+)?(?:were\\s+)?(?:killed|dead|died|slain)",
   "(?:killed|dead|died|slain)\\s+(\\d+)",
   "(?:at\\s+least\\s+)(\\d+)\\s*(?:people\\s+)?(?:killed|dead|died)",
   "death\\s+toll[^.]*?(\\d+)",
   "(\\d+)\\s*(?:casualties|fatalities)",
   "killing\\s+(?:at\\s+least\\s+)?(\\d+)",
   "(\\d+)\\s+deaths?\\b",
   "claimed\\s+(?:the\\s+)?(?:lives?\\s+of\\s+)?(\\d+)",
   "left\\s+(?:at\\s+least\\s+)?(\\d+)\\s*(?:people\\s+)?dead",
   "(\\d+)\\s*(?:people\\s+)?(?:lost\\s+their\\s+lives|perished)",
   "(\\d+)\\s*(?:people\\s+)?confirmed\\s+dead",
   "(?:toll|count)\\s+(?:has\\s+)?(?:risen?\\s+to|reached?)\\s+(\\d+)"]

/-- The source strings of the compiled `WOUNDED_PATTERNS` regexes, in order. -/
def WOUNDED_PATTERNS : List String :=
  ["(\\d+)\\s*(?:people\\s+)?(?:were\\s+)?(?:wounded|injured|hurt)",
   "(?:wounded|injured|hurt)\\s+(\\d+)",
   "(?:at\\s+least\\s+)(\\d+)\\s*(?:people\\s+)?(?:wounded|injured)",
   "(?:wounding|injuring)\\s+(?:at\\s+least\\s+)?(\\d+)",
   "(\\d+)\\s*(?:people\\s+)?(?:hospitalized|taken\\s+to\\s+hospital)",
   "(\\d+)\\s*(?:people\\s+)?(?:treated\\s+for)"]

/-- Numeric value of a digit string. -/
def digitsVal (l : List Char) : Nat :=
  l.foldl (fun a c => a * 10 + (c.toNat - 48)) 0

/-- Model of Python `int(s)` on a string: optional surrounding whitespace,
optional sign, then decimal digits; anything else raises `ValueError`,
modelled as `none`. -/
def pyInt? (s : String) : Option Int :=
  match stripL s.data with
  | '+' :: d => if !d.isEmpty && d.all Char.isDigit then some (digitsVal d) else none
  | '-' :: d => if !d.isEmpty && d.all Char.isDigit then some (-(digitsVal d : Int)) else none
  | d => if !d.isEmpty && d.all Char.isDigit then some (digitsVal d) else none

/-- Embedding of `_extract_count(text, patterns, max_threshold)`: fold over
every match of every pattern, keeping the running maximum of the parsed
values strictly below the threshold, starting from 0. -/
def extract_count (findall : String → String → List String) (text : String)
    (patterns : List String) (max_threshold : Int) : Int :=
  patterns.foldl (fun result pattern =>
    (findall pattern text).foldl (fun result m =>
      match pyInt? m with
      | some num => if num < max_threshold then max result num else result
      | none => result) result) 0

/-- Embedding of `extract_killed(text)`. -/
def extract_killed (env : Env) (text : String) : Int :=
  extract_count env.findall text CASUALTY_PATTERNS 10000

/-- Embedding of `extract_wounded(text)`. -/
def extract_wounded (env : Env) (text : String) : Int :=
  extract_count env.findall text WOUNDED_PATTERNS 50000

/-- Specification-side view: the integers captured by all matches of all
patterns, in order. -/
def matchedValues (findall : String → String → List String)
    (patterns : List String) (text : String) : List Int :=
  ((patterns.map (fun p => findall p text)).flatten).filterMap pyInt?

/-- Specification-side view: the captured values strictly below the ceiling. -/
def valuesBelow (vals : List Int) (thr : Int) : List Int :=
  vals.filter (fun v => v < thr)

/-- Specification-side view: maximum of a list of integers, 0 when empty. -/
def maxOr0 (vals : List Int) : Int :=
  vals.foldl max 0

/-- Environment modelling the regex engine on a text matching both "12
killed" (first casualty pattern) and "death toll reached 15" (last casualty
pattern). -/
def envEx1 : Env :=
  { envTriv with findall := fun p _ =>
      if p = "(\\d+)\\s*(?:people\\s+)?(?:were\\s+)?(?:killed|dead|died|slain)" then ["12"]
      else if p = "(?:toll|count)\\s+(?:has\\s+)?(?:risen?\\s+to|reached?)\\s+(\\d+)" then ["15"]
      else [] }

/-- Environment modelling the regex engine on a text whose only wounded
match captures 50000, at the wounded ceiling. -/
def envEx2 : Env :=
  { envTriv with findall := fun p _ =>
      if p = "(\\d+)\\s*(?:people\\s+)?(?:were\\s+)?(?:wounded|injured|hurt)" then ["50000"]
      else [] }

/-! ## Location extraction (`extract_location` / `_extract_location`) -/

/-- The source string of the compiled prepositional fallback regex
`location_re` (applied to the original-case text by `Env.findall`). -/
def LOCATION_RE : String :=
  "(?:in|near|outside|targeting|struck|hit|toward|towards|on)\\s+([A-Z][a-z]+(?:\\s+[A-Z][a-z]+)*)"

/-- Stable insertion of a string into a list sorted by descending length:
placed before the first element that is not strictly longer. -/
def insertLen (x : String) : List String → List String
  | [] => [x]
  | y :: ys => if y.length ≤ x.length then x :: y :: ys else y :: insertLen x ys

/-- Model of `sorted(keys, key=len, reverse=True)` (Python's sort is stable;
this insertion sort places earlier elements before equal-length later ones). -/
def sortLenDesc : List String → List String
  | [] => []
  | x :: xs => insertLen x (sortLenDesc xs)

/-- The fallback loop of `extract_location`: for each captured prepositional
phrase, return the first one that `get_coordinates` resolves, threading the
geocode cache. -/
def locFallback (env : Env) : List String → GeoState → Option String × GeoState
  | [], st => (none, st)
  | m :: ms, st =>
    match get_coordinates env st m with
    | (some _, st', _) => (some m, st')
    | (none, st', _) => locFallback env ms st'

/-- Embedding of `extract_location(text)`: first scan the gazetteer keys,
longest first, for substring containment in the lowercased text and return
the title-cased key; only when no key is contained, run the prepositional
regex fallback over the original-case text. -/
def extract_location (env : Env) (st : GeoState) (text : String) :
    Option String × GeoState :=
  match (sortLenDesc (KNOWN_LOCATIONS.map Prod.fst)).find?
      (fun location => strContains (pyLower text) location) with
  | some location => (some (pyTitle location), st)
  | none => locFallback env (env.findall LOCATION_RE text) st

/-! ## Date parsing (`parse_date` / `_parse_date`)

The six fixed `strptime` formats are modelled as parsers over character
lists, mirroring CPython's `_strptime` semantics for the directives that
occur in them: matching is case-insensitive, whitespace in a format matches
a nonempty whitespace run, `%d`/`%m`/`%H`/`%M`/`%S` match one or two digits
(in these formats the following token never starts with a digit), `%Y`
matches exactly four digits, `%a`/`%b` match the C-locale abbreviated names,
`%z` matches `[+-]dd:?dd(:dd(.1-6 digits)?)?` or a case-sensitive `Z` with
the offset magnitude required to be below 24 hours, and `%Z` matches
`UTC`/`GMT` (the machine-local timezone names are not modelled).  Range
validation mirrors the `datetime` constructor. -/

/-- Numeric value of one digit character. -/
def digitVal (c : Char) : Nat :=
  c.toNat - 48

/-- Consume a literal, case-insensitively. -/
def pLitCI : List Char → List Char → Option (List Char)
  | [], l => some l
  | _ :: _, [] => none
  | c :: cs, x :: xs => if c.toLower == x.toLower then pLitCI cs xs else none

/-- Consume one literal character, case-insensitively. -/
def pChar (c : Char) (l : List Char) : Option (List Char) :=
  match l with
  | x :: xs => if c.toLower == x.toLower then some xs else none
  | [] => none

/-- Consume a nonempty whitespace run (whitespace in a format). -/
def pWs1 (l : List Char) : Option (List Char) :=
  match l with
  | c :: _ => if isWs c then some (l.dropWhile isWs) else none
  | [] => none

/-- Consume one or two digits (`%d`, `%m`, `%H`, `%M`, `%S`); three or more
consecutive digits can never match in these formats because the next token
never begins with a digit. -/
def pNum12 (l : List Char) : Option (Nat × List Char) :=
  let ds := l.takeWhile Char.isDigit
  if ds.length = 1 || ds.length = 2 then some (digitsVal ds, l.drop ds.length)
  else none

/-- Consume exactly four digits (`%Y`). -/
def pNum4 (l : List Char) : Option (Nat × List Char) :=
  match l with
  | a :: b :: c :: d :: rest =>
    if a.isDigit && b.isDigit && c.isDigit && d.isDigit then
      some (digitsVal [a, b, c, d], rest)
    else none
  | _ => none

/-- C-locale abbreviated weekday names (`%a`); the value is ignored. -/
def WEEKDAY_ABBRS : List String :=
  ["sun", "mon", "tue", "wed", "thu", "fri", "sat"]

/-- C-locale abbreviated month names (`%b`), in month order. -/
def MONTH_ABBRS : List String :=
  ["jan", "feb", "mar", "apr", "may", "jun", "jul", "aug", "sep", "oct",
   "nov", "dec"]

/-- Consume an abbreviated weekday name (`%a`). -/
def pWeekday (l : List Char) : Option (List Char) :=
  WEEKDAY_ABBRS.findSome? (fun w => pLitCI w.data l)

/-- Consume an abbreviated month name, returning its number (`%b`). -/
def pMonthAux : List String → Nat → List Char → Option (Nat × List Char)
  | [], _, _ => none
  | w :: ws, i, l =>
    match pLitCI w.data l with
    | some r => some (i, r)
    | none => pMonthAux ws (i + 1) l

/-- Consume an abbreviated month name (`%b`). -/
def pMonth (l : List Char) : Option (Nat × List Char) :=
  pMonthAux MONTH_ABBRS 1 l

/-- Consume a `%z` UTC offset: `[+-]dd:?dd(:dd(.frac)?)?` or a
case-sensitive `Z`; the total offset must be under 24 hours (the
`timezone(timedelta(...))` constructor raises otherwise, failing the
format). -/
def pTzZ (l : List Char) : Option (List Char) :=
  match l with
  | 'Z' :: rest => some rest
  | c :: rest =>
    if c == '+' || c == '-' then
      match rest with
      | h1 :: h2 :: r2 =>
        if h1.isDigit && h2.isDigit then
          let r3 := match r2 with
            | ':' :: r => r
            | r => r
          match r3 with
          | m1 :: m2 :: r4 =>
            if m1.isDigit && m2.isDigit then
              let hh := digitVal h1 * 10 + digitVal h2
              let mm := digitVal m1 * 10 + digitVal m2
              let secRest : Option (Nat × List Char) :=
                match r4 with
                | ':' :: s1 :: s2 :: r5 =>
                  if s1.isDigit && s2.isDigit then
                    let ss := digitVal s1 * 10 + digitVal s2
                    match r5 with
                    | '.' :: fr =>
                      let ds := fr.takeWhile Char.isDigit
                      if 1 ≤ ds.length && ds.length ≤ 6 then
                        some (ss, fr.drop ds.length)
                      else none
                    | _ => some (ss, r5)
                  else some (0, ':' :: s1 :: s2 :: r5)
                | _ => some (0, r4)
              match secRest with
              | some (ss, rest') =>
                if hh * 3600 + mm * 60 + ss < 86400 then some rest' else none
              | none => none
            else none
          | _ => none
        else none
      | _ => none
    else none
  | [] => none

/-- Consume a `%Z` timezone name: `UTC` or `GMT`, case-insensitively (the
machine-local `time.tzname` entries are environment-dependent and not
modelled). -/
def pTzName (l : List Char) : Option (List Char) :=
  match pLitCI "utc".data l with
  | some r => some r
  | none => pLitCI "gmt".data l

/-- Gregorian leap-year test. -/
def isLeap (y : Nat) : Bool :=
  (y % 4 == 0 && y % 100 != 0) || y % 400 == 0

/-- Days in a month. -/
def daysInMonth (y m : Nat) : Nat :=
  if m = 2 then (if isLeap y then 29 else 28)
  else if m = 4 || m = 6 || m = 9 || m = 11 then 30
  else 31

/-- The `datetime(year, month, day, hour, minute, second)` range checks. -/
def validDate (y m d H M S : Nat) : Bool :=
  1 ≤ y && y ≤ 9999 && 1 ≤ m && m ≤ 12 && 1 ≤ d && d ≤ daysInMonth y m &&
    H ≤ 23 && M ≤ 59 && S ≤ 59

/-- Parser for `"%a, %d %b %Y %H:%M:%S"` followed by whitespace and the
given timezone tail (`%z`, `%Z` or the literal `GMT`). -/
def fmtRFC822 (tzp : List Char → Option (List Char)) (l : List Char) :
    Option (Nat × Nat × Nat) := do
  let l ← pWeekday l
  let l ← pChar ',' l
  let l ← pWs1 l
  let (d, l) ← pNum12 l
  let l ← pWs1 l
  let (m, l) ← pMonth l
  let l ← pWs1 l
  let (y, l) ← pNum4 l
  let l ← pWs1 l
  let (H, l) ← pNum12 l
  let l ← pChar ':' l
  let (M, l) ← pNum12 l
  let l ← pChar ':' l
  let (S, l) ← pNum12 l
  let l ← pWs1 l
  let l ← tzp l
  if l.isEmpty && validDate y m d H M S then some (y, m, d) else none

/-- Parser for `"%Y-%m-%d"` + separator + `"%H:%M:%S"` + timezone tail
(the literal `T`, the whitespace separator, `%z`, the literal `Z`, or
nothing). -/
def fmtYmdHms (sep : List Char → Option (List Char))
    (tzp : List Char → Option (List Char)) (l : List Char) :
    Option (Nat × Nat × Nat) := do
  let (y, l) ← pNum4 l
  let l ← pChar '-' l
  let (m, l) ← pNum12 l
  let l ← pChar '-' l
  let (d, l) ← pNum12 l
  let l ← sep l
  let (H, l) ← pNum12 l
  let l ← pChar ':' l
  let (M, l) ← pNum12 l
  let l ← pChar ':' l
  let (S, l) ← pNum12 l
  let l ← tzp l
  if l.isEmpty && validDate y m d H M S then some (y, m, d) else none

/-- The `date_formats` list of `parse_date`, in source order. -/
def dateFormats : List (List Char → Option (Nat × Nat × Nat)) :=
  [fmtRFC822 pTzZ,
   fmtRFC822 pTzName,
   fmtRFC822 (fun l => pLitCI "GMT".data l),
   fmtYmdHms (fun l => pChar 'T' l) pTzZ,
   fmtYmdHms (fun l => pChar 'T' l) (fun l => pLitCI "Z".data l),
   fmtYmdHms pWs1 (fun l => some l)]

/-- The `for fmt in date_formats: try ... except ValueError: continue` loop:
the first format that parses determines the result. -/
def firstParse (l : List Char) : Option (Nat × Nat × Nat) :=
  dateFormats.findSome? (fun f => f l)

/-- Two-digit zero-padded rendering (for values below 100). -/
def pad2 (n : Nat) : List Char :=
  [Char.ofNat (48 + n / 10 % 10), Char.ofNat (48 + n % 10)]

/-- Four-digit zero-padded rendering (for values below 10000). -/
def pad4 (n : Nat) : List Char :=
  [Char.ofNat (48 + n / 1000 % 10), Char.ofNat (48 + n / 100 % 10),
   Char.ofNat (48 + n / 10 % 10), Char.ofNat (48 + n % 10)]

/-- The `dt.strftime("%Y-%m-%d")` rendering of the parsed date. -/
def fmtYmd (y m d : Nat) : String :=
  ⟨pad4 y ++ '-' :: (pad2 m ++ '-' :: pad2 d)⟩

/-- The anchored `re.match(r"\d{4}-\d{2}-\d{2}", date_str)` test: the first
ten characters have the digits-and-dashes ISO shape. -/
def isoShape (s : String) : Bool :=
  match s.data with
  | a :: b :: c :: d :: h1 :: e :: f :: h2 :: g :: h :: _ =>
    a.isDigit && b.isDigit && c.isDigit && d.isDigit && h1 == '-' &&
      e.isDigit && f.isDigit && h2 == '-' && g.isDigit && h.isDigit
  | _ => false

/-- Embedding of `parse_date(date_str)` (`env.today` is the current UTC
date): empty input falls back to today; a length-≥10 ISO-shaped prefix is
returned verbatim as its first ten characters; otherwise the stripped input
is tried against the fixed format list in order and the first success is
rendered as `YYYY-MM-DD`; if nothing parses, today. -/
def parse_date (env : Env) (date_str : String) : String :=
  if date_str = "" then env.today
  else if 10 ≤ date_str.length && isoShape date_str then ⟨date_str.data.take 10⟩
  else
    match firstParse (stripL date_str.data) with
    | some (y, m, d) => fmtYmd y m d
    | none => env.today

/-- Environment with a fixed current UTC date, for concrete evaluations. -/
def envToday : Env :=
  { envTriv with today := "2025-06-20" }

/-! ## Incident model and extraction (`app/models.py`, `incident_from_feed_entry`,
`parse_article`) -/

/-- Embedding of the `BombingIncident` pydantic model. -/
structure BombingIncident where
  id : String
  title : String
  location : String
  latitude : ℚ
  longitude : ℚ
  date : String
  killed : Int
  wounded : Int
  notable_figures : List String
  description : String
  source : String
  source_url : String
  attacker : String
  origin_location : String
  origin_latitude : Option ℚ
  origin_longitude : Option ℚ
deriving DecidableEq

/-- A normalized feed entry dict (`title`, `link`, `summary`, `date`,
`source`, `source_url`), as produced by `parse_rss_entries`. -/
structure FeedEntry where
  title : String
  link : String
  summary : String
  date : String
  source : String
  source_url : String
deriving DecidableEq

/-- The `self.extract_location(a) or self.extract_location(b)` step followed
by the `if not location` truthiness test: the second extraction runs only
when the first result is Python-falsy (`None` or `""`), and a falsy final
value collapses to `none`. -/
def locate2 (env : Env) (st : GeoState) (t1 t2 : String) :
    Option String × GeoState :=
  match extract_location env st t1 with
  | (some l, st') =>
    if l = "" then
      match extract_location env st' t2 with
      | (some l2, st'') => if l2 = "" then (none, st'') else (some l2, st'')
      | (none, st'') => (none, st'')
    else (some l, st')
  | (none, st') =>
    match extract_location env st' t2 with
    | (some l2, st'') => if l2 = "" then (none, st'') else (some l2, st'')
    | (none, st'') => (none, st'')

/-- Python `a or b` on strings (empty string is falsy). -/
def pyOrStr (a b : String) : String :=
  if a = "" then b else a

/-- The `entry.get("source") or source_name or self.name` attribution chain
(`source_name` may be `None`). -/
def entrySource (entrySrc : String) (source_name : Option String)
    (selfName : String) : String :=
  if entrySrc ≠ "" then entrySrc
  else
    match source_name with
    | some sn => if sn ≠ "" then sn else selfName
    | none => selfName

/-- The `summary[:300].strip()` description with an ellipsis when truncated. -/
def truncDescription (s : String) : String :=
  let d := pyStrip ⟨s.data.take 300⟩
  if 300 < s.data.length then d ++ "..." else d

/-- Embedding of `incident_from_feed_entry(entry, source_name)`
(`env.newId` is the generated uuid). -/
def incident_from_feed_entry (env : Env) (st : GeoState) (entry : FeedEntry)
    (source_name : Option String) (selfName : String) :
    Option BombingIncident × GeoState :=
  let title := entry.title
  let summary := entry.summary
  let combined := title ++ ". " ++ summary
  if !is_relevant summary title then (none, st)
  else
    match locate2 env st title summary with
    | (none, st1) => (none, st1)
    | (some location, st1) =>
      match get_coordinates env st1 location with
      | (none, st2, _) => (none, st2)
      | (some coords, st2, _) =>
        (some {
          id := env.newId
          title := title
          location := location
          latitude := coords.1
          longitude := coords.2
          date := parse_date env entry.date
          killed := extract_killed env combined
          wounded := extract_wounded env combined
          notable_figures := []
          description := truncDescription summary
          source := entrySource entry.source source_name selfName
          source_url := pyOrStr entry.source_url entry.link
          attacker := ""
          origin_location := ""
          origin_latitude := none
          origin_longitude := none }, st2)

/-- Embedding of `parse_article(html_text, url)`.  The BeautifulSoup
structural extraction (first `h1` text, joined paragraph text of the best
container, `datetime` attribute of a `time` element) is performed by an
external library, so its results `title`, `text` and `timeAttr` are inputs
here; the guard structure and field construction follow the source. -/
def parse_article (env : Env) (st : GeoState) (title text : String)
    (timeAttr : Option String) (url selfName : String) :
    Option BombingIncident × GeoState :=
  if title = "" then (none, st)
  else if text = "" || !is_relevant text title then (none, st)
  else
    match locate2 env st title text with
    | (none, st1) => (none, st1)
    | (some location, st1) =>
      match get_coordinates env st1 location with
      | (none, st2, _) => (none, st2)
      | (some coords, st2, _) =>
        let d : String := ⟨(timeAttr.getD "").data.take 10⟩
        (some {
          id := env.newId
          title := title
          location := location
          latitude := coords.1
          longitude := coords.2
          date := if d = "" then env.today else d
          killed := extract_killed env text
          wounded := extract_wounded env text
          notable_figures := []
          description := truncDescription text
          source := selfName
          source_url := url
          attacker := ""
          origin_location := ""
          origin_latitude := none
          origin_longitude := none }, st2)

/-- Feed entry used for concrete evaluation: relevant title naming a
gazetteer city. -/
def entryEx : FeedEntry :=
  { title := "Missile strike hits Tehran", link := "http://example.org/a",
    summary := "At least 3 killed in the attack.", date := "", source := "",
    source_url := "" }

/-! ## Aggregation and deduplication (`scrape_all` / `scrape_all_sources`) -/

/-- The `incident.title.lower().strip()` deduplication key. -/
def normTitle (inc : BombingIncident) : String :=
  pyStrip (pyLower inc.title)

/-- Embedding of the result-merging loop of `scrape_all`: the
`asyncio.gather(..., return_exceptions=True)` outcome of each source task is
either an incident list or an exception; exceptions contribute nothing, and
incidents are appended in arrival order unless their normalized title was
already seen. -/
def scrape_all_dedup
    (results : List (Except String (List BombingIncident))) :
    List BombingIncident :=
  (results.foldl (fun acc result =>
    match result with
    | .ok incs =>
      incs.foldl (fun acc incident =>
        if acc.2.contains (normTitle incident) then acc
        else (acc.1 ++ [incident], normTitle incident :: acc.2)) acc
    | .error _ => acc) ([], [])).1

/-- Specification-side view: concatenation of the successful sources'
results, in arrival order. -/
def flattenOk (results : List (Except String (List BombingIncident))) :
    List BombingIncident :=
  results.foldr (fun r acc =>
    match r with
    | .ok l => l ++ acc
    | .error _ => acc) []

/-- Specification-side view of first-occurrence deduplication by normalized
title: keep the head, drop every later element with an equal key. -/
def dedupByTitle : List BombingIncident → List BombingIncident
  | [] => []
  | x :: xs =>
    x :: dedupByTitle (xs.filter (fun y => normTitle y ≠ normTitle x))
termination_by l => l.length
decreasing_by
  simp only [List.length_cons]
  exact Nat.lt_succ_of_le (List.length_filter_le _ _)

/-- The seen-set pass of the merging loop, on a single incident list. -/
def dedupSeen (seen : List String) : List BombingIncident → List BombingIncident
  | [] => []
  | x :: xs =>
    if seen.contains (normTitle x) then dedupSeen seen xs
    else x :: dedupSeen (normTitle x :: seen) xs

/-- The seen set after processing a list. -/
def seenAfter (seen : List String) : List BombingIncident → List String
  | [] => seen
  | x :: xs =>
    if seen.contains (normTitle x) then seenAfter seen xs
    else seenAfter (normTitle x :: seen) xs

/-- Incident with only a title, for the concrete deduplication scenario. -/
def mkInc (t : String) : BombingIncident :=
  { id := "", title := t, location := "", latitude := 0, longitude := 0,
    date := "", killed := 0, wounded := 0, notable_figures := [],
    description := "", source := "", source_url := "", attacker := "",
    origin_location := "", origin_latitude := none, origin_longitude := none }

/-! ## RSS/Atom feed parsing (`parse_rss_entries` / `_parse_rss_entries`)

The fixed regular expressions of the source are modelled directly as
scanners with the semantics of CPython `re` on those patterns: non-greedy
`(.*?)` captures up to the first occurrence of the closing literal, `[^>]*`
is the run of non-`>` characters, a failed match attempt resumes searching
at the next position, and `re.findall` yields non-overlapping matches left
to right.  `html.unescape` is the Python standard library; it is modelled
for the five basic named entities. -/

/-- Index of the first occurrence of `pat` in a list, if any. -/
def firstOccur? (pat : List Char) : List Char → Option Nat
  | [] => if pat.isEmpty then some 0 else none
  | l@(_ :: t) =>
    if isPre pat l then some 0 else (firstOccur? pat t).map (· + 1)

/-- `re.findall(r"<open>(.*?)</close>", s, re.DOTALL)` for literal open and
close tags: non-overlapping blocks, each capture running to the first
closing tag.  The fuel starts at the input length; every iteration consumes
at least the nonempty opening literal. -/
def findBlocksAux (openT closeT : List Char) : Nat → List Char → List (List Char)
  | 0, _ => []
  | fuel + 1, hay =>
    match firstOccur? openT hay with
    | none => []
    | some i =>
      let rest := hay.drop (i + openT.length)
      match firstOccur? closeT rest with
      | none => []
      | some j => rest.take j :: findBlocksAux openT closeT fuel (rest.drop (j + closeT.length))

/-- Non-overlapping `<open>(.*?)</close>` blocks of a document. -/
def findBlocks (openT closeT : List Char) (hay : List Char) : List (List Char) :=
  findBlocksAux openT closeT hay.length hay

/-- Leftmost position where one of the given literals starts, with the
literal that matched (the alternation of the tag patterns). -/
def firstOccAlt (pats : List (List Char)) : List Char → Option (Nat × List Char)
  | [] => (pats.find? (fun p => p.isEmpty)).map (fun p => (0, p))
  | l@(_ :: t) =>
    match pats.find? (fun p => isPre p l) with
    | some p => some (0, p)
    | none => (firstOccAlt pats t).map (fun r => (r.1 + 1, r.2))

/-- `re.search(r"<tag[^>]*>(.*?)</tag>", s, re.DOTALL)` with alternative
open/close literals: at each open occurrence, `[^>]*` runs to the first `>`
(failing if the document has none left), and the capture runs to the first
closing literal; if no close follows, the search resumes after the failed
open position. -/
def searchTagAux (opens closes : List (List Char)) :
    Nat → List Char → Option (List Char)
  | 0, _ => none
  | fuel + 1, hay =>
    match firstOccAlt opens hay with
    | none => none
    | some (i, op) =>
      let after := hay.drop (i + op.length)
      let attrs := after.takeWhile (fun c => c ≠ '>')
      match after.drop attrs.length with
      | '>' :: body =>
        match firstOccAlt closes body with
        | some (j, _) => some (body.take j)
        | none => searchTagAux opens closes fuel (hay.drop (i + 1))
      | _ => none

/-- Search a `<tag[^>]*>(.*?)</tag>` pattern. -/
def searchTag (openLit closeLit : String) (hay : List Char) : Option (List Char) :=
  searchTagAux [openLit.data] [closeLit.data] hay.length hay

/-- Search with alternative tag names (`summary|content`,
`published|updated`). -/
def searchTagAlt (opens closes : List String) (hay : List Char) :
    Option (List Char) :=
  searchTagAux (opens.map String.data) (closes.map String.data) hay.length hay

/-- The `[^>]*href=["\']([^"\']+)["\']` tail at one open-tag occurrence:
greedy `[^>]*` tries the rightmost `href=` start before the first `>` first;
the capture is the nonempty run up to the next quote, which must exist. -/
def hrefCapture (after : List Char) : Option (List Char) :=
  let gtIdx := (after.takeWhile (fun c => c ≠ '>')).length
  ((List.range gtIdx).reverse).findSome? (fun k =>
    let r := after.drop k
    if isPre ("href=".data) r then
      match r.drop 5 with
      | q :: rest =>
        if q = '"' || q = '\'' then
          let run := rest.takeWhile (fun c => c ≠ '"' && c ≠ '\'')
          if run.isEmpty then none
          else if (rest.drop run.length).isEmpty then none
          else some run
        else none
      | [] => none
    else none)

/-- `re.search(r'<link[^>]*href=["\']([^"\']+)["\']', s)`-style search: try
each open-tag occurrence left to right. -/
def hrefSearchAux (openLit : List Char) : Nat → List Char → Option (List Char)
  | 0, _ => none
  | fuel + 1, hay =>
    match firstOccur? openLit hay with
    | none => none
    | some i =>
      match hrefCapture (hay.drop (i + openLit.length)) with
      | some v => some v
      | none => hrefSearchAux openLit fuel (hay.drop (i + 1))

/-- Search an `href` attribute capture after the given open literal. -/
def hrefSearch (openLit : List Char) (hay : List Char) : Option (List Char) :=
  hrefSearchAux openLit hay.length hay

/-- The `[^>]*url=["\']([^"\']*)["\'][^>]*>(.*?)</source>` tail at one
`<source` occurrence: greedy `[^>]*` tries the rightmost `url=` start before
the first `>`; the possibly-empty value runs to the next quote, then
`[^>]*>` runs to the first `>`, and the body capture runs to the first
`</source>`. -/
def sourceCapture (after : List Char) : Option (List Char × List Char) :=
  let gtIdx := (after.takeWhile (fun c => c ≠ '>')).length
  ((List.range gtIdx).reverse).findSome? (fun k =>
    let r := after.drop k
    if isPre ("url=".data) r then
      match r.drop 4 with
      | q :: rest =>
        if q = '"' || q = '\'' then
          let run := rest.takeWhile (fun c => c ≠ '"' && c ≠ '\'')
          match rest.drop run.length with
          | _ :: afterQuote =>
            let attrs2 := afterQuote.takeWhile (fun c => c ≠ '>')
            match afterQuote.drop attrs2.length with
            | '>' :: body =>
              match firstOccur? ("</source>".data) body with
              | some j => some (run, body.take j)
              | none => none
            | _ => none
          | [] => none
        else none
      | [] => none
    else none)

/-- Search the two-group `<source ... url="...">(...)</source>` pattern. -/
def sourceSearchAux : Nat → List Char → Option (List Char × List Char)
  | 0, _ => none
  | fuel + 1, hay =>
    match firstOccur? ("<source".data) hay with
    | none => none
    | some i =>
      match sourceCapture (hay.drop (i + 7)) with
      | some v => some v
      | none => sourceSearchAux fuel (hay.drop (i + 1))

/-- Search the `<source[^>]*url=["\']([^"\']*)["\'][^>]*>(.*?)</source>`
pattern. -/
def sourceSearch (hay : List Char) : Option (List Char × List Char) :=
  sourceSearchAux hay.length hay

/-- `re.sub(r"<!\[CDATA\[(.*?)\]\]>", r"\1", s, re.DOTALL)`: each CDATA
wrapper is replaced by its contents; a wrapper with no closing `]]>` stops
further matching. -/
def subCdataAux : Nat → List Char → List Char
  | 0, l => l
  | fuel + 1, hay =>
    match firstOccur? ("<![CDATA[".data) hay with
    | none => hay
    | some i =>
      let rest := hay.drop (i + 9)
      match firstOccur? ("]]>".data) rest with
      | none => hay
      | some j => hay.take i ++ rest.take j ++ subCdataAux fuel (rest.drop (j + 3))

/-- Unwrap CDATA sections. -/
def subCdata (l : List Char) : List Char :=
  subCdataAux l.length l

/-- The `_clean_cdata` helper: unwrap CDATA, then strip. -/
def cleanCdata (l : List Char) : List Char :=
  stripL (subCdata l)

/-- `re.sub(r"<[^>]+>", " ", s)`: each `<`, one or more non-`>` characters,
`>` run becomes a single space, scanning left to right. -/
def subTagsAux : Nat → List Char → List Char
  | 0, l => l
  | fuel + 1, hay =>
    match firstOccur? (['<']) hay with
    | none => hay
    | some i =>
      let rest := hay.drop (i + 1)
      let run := rest.takeWhile (fun c => c ≠ '>')
      if run.isEmpty then hay.take (i + 1) ++ subTagsAux fuel rest
      else
        match rest.drop run.length with
        | '>' :: tl => hay.take i ++ ' ' :: subTagsAux fuel tl
        | _ => hay

/-- Strip embedded markup, replacing each tag with a space. -/
def subTags (l : List Char) : List Char :=
  subTagsAux l.length l

/-- `re.sub(r"\s+", " ", s)`: collapse whitespace runs to single spaces. -/
def collapseWsAux : Bool → List Char → List Char
  | _, [] => []
  | prevWs, c :: t =>
    if isWs c then
      (if prevWs then collapseWsAux true t else ' ' :: collapseWsAux true t)
    else c :: collapseWsAux false t

/-- Collapse whitespace runs to single spaces. -/
def collapseWs (l : List Char) : List Char :=
  collapseWsAux false l

/-- Modelled from the spec: "HTML entities decoded" — `html.unescape` is the
Python standard library, outside this repository; modelled for the five
basic named entities. -/
def htmlUnescapeAux : Nat → List Char → List Char
  | 0, l => l
  | fuel + 1, l =>
    match l with
    | [] => []
    | '&' :: rest =>
      if isPre ("amp;".data) rest then '&' :: htmlUnescapeAux fuel (rest.drop 4)
      else if isPre ("lt;".data) rest then '<' :: htmlUnescapeAux fuel (rest.drop 3)
      else if isPre ("gt;".data) rest then '>' :: htmlUnescapeAux fuel (rest.drop 3)
      else if isPre ("quot;".data) rest then '"' :: htmlUnescapeAux fuel (rest.drop 5)
      else if isPre ("#39;".data) rest then '\'' :: htmlUnescapeAux fuel (rest.drop 4)
      else '&' :: htmlUnescapeAux fuel rest
    | c :: rest => c :: htmlUnescapeAux fuel rest

/-- Decode basic HTML entities. -/
def htmlUnescape (l : List Char) : List Char :=
  htmlUnescapeAux l.length l

/-- The stripped capture of the `<title[^>]*>(.*?)</title>` search on one
item (`raw_title`); empty when there is no title match. -/
def itemRawTitle (item : List Char) : List Char :=
  match searchTag "<title" "</title>" item with
  | some g => stripL g
  | none => []

/-- The entry dict built from one titled RSS `<item>` block. -/
def mkItemEntry (item : List Char) : FeedEntry :=
  let title := cleanCdata (itemRawTitle item)
  let linkm : Option (List Char) :=
    match (searchTag "<link" "</link>" item).map stripL with
    | some g => if g.isEmpty then hrefSearch ("<link".data) item else some g
    | none => hrefSearch ("<link".data) item
  let link := match linkm with
    | some g => cleanCdata (stripL g)
    | none => []
  let desc0 := match searchTag "<description" "</description>" item with
    | some g => cleanCdata (stripL g)
    | none => []
  let desc := collapseWs (stripL (htmlUnescape (subTags desc0)))
  let date := match searchTag "<pubDate" "</pubDate>" item with
    | some g => stripL g
    | none => []
  let src := sourceSearch item
  { title := ⟨htmlUnescape title⟩
    link := ⟨link⟩
    summary := ⟨desc⟩
    date := ⟨date⟩
    source := match src with
      | some (_, g2) => ⟨stripL g2⟩
      | none => ""
    source_url := match src with
      | some (g1, _) => ⟨stripL g1⟩
      | none => "" }

/-- One RSS item: dropped when its raw title is empty (`continue`),
otherwise the built entry. -/
def itemEntry? (item : List Char) : Option FeedEntry :=
  if (itemRawTitle item).isEmpty then none else some (mkItemEntry item)

/-- The stripped raw title of one Atom `<entry>` block. -/
def atomRawTitle (entry : List Char) : List Char :=
  match searchTag "<title" "</title>" entry with
  | some g => stripL g
  | none => []

/-- The entry dict built from one titled Atom `<entry>` block. -/
def mkAtomEntry (entry : List Char) : FeedEntry :=
  { title := ⟨htmlUnescape (subCdata (atomRawTitle entry))⟩
    link := match hrefSearch ("<link".data) entry with
      | some g => ⟨g⟩
      | none => ""
    summary := match searchTagAlt ["<summary", "<content"]
        ["</summary>", "</content>"] entry with
      | some g => ⟨stripL (subTags g)⟩
      | none => ""
    date := match searchTagAlt ["<published", "<updated"]
        ["</published>", "</updated>"] entry with
      | some g => ⟨stripL g⟩
      | none => ""
    source := ""
    source_url := "" }

/-- One Atom entry: dropped when its raw title is empty. -/
def atomEntry? (entry : List Char) : Option FeedEntry :=
  if (atomRawTitle entry).isEmpty then none else some (mkAtomEntry entry)

/-- Embedding of `parse_rss_entries(xml_text)`: the RSS `<item>` pass, then
the Atom `<entry>` fallback exactly when the RSS pass produced zero
entries. -/
def parse_rss_entries (xml : String) : List FeedEntry :=
  let entries :=
    (findBlocks ("<item>".data) ("</item>".data) xml.data).filterMap itemEntry?
  if entries.isEmpty then
    (findBlocks ("<entry>".data) ("</entry>".data) xml.data).filterMap atomEntry?
  else entries

/-- Input with one untitled RSS item and one titled Atom entry. -/
def xmlC6 : String :=
  "<item><link>http://x</link></item><entry><title>T</title></entry>"

/-- Input with one titled and one untitled RSS item. -/
def xmlC6b : String :=
  "<item><title>A</title></item><item><link>l</link></item>"

/-! ## Theorems -/

/-! ## Correctness of the substring primitives -/

theorem isPre_iff (pat l : List Char) :
    isPre pat l = true ↔ ∃ t, pat ++ t = l := by
  induction pat generalizing l with
  | nil => simp [isPre]
  | cons a p ih =>
    cases l with
    | nil => simp [isPre]
    | cons b t =>
      simp only [isPre, Bool.and_eq_true, beq_iff_eq, ih]
      constructor
      · rintro ⟨rfl, u, rfl⟩
        exact ⟨u, rfl⟩
      · rintro ⟨u, h⟩
        injection h with h1 h2
        exact ⟨h1, u, h2⟩

theorem containsAux_iff (pat l : List Char) :
    containsAux pat l = true ↔ ∃ s t, s ++ pat ++ t = l := by
  induction l with
  | nil =>
    simp only [containsAux, List.isEmpty_iff]
    constructor
    · rintro rfl
      exact ⟨[], [], rfl⟩
    · rintro ⟨s, t, h⟩
      rcases List.append_eq_nil.mp h with ⟨h1, h2⟩
      exact (List.append_eq_nil.mp h1).2
  | cons c t ih =>
    simp only [containsAux, Bool.or_eq_true, isPre_iff, ih]
    constructor
    · rintro (⟨u, h⟩ | ⟨s, u, h⟩)
      · exact ⟨[], u, by simpa using h⟩
      · exact ⟨c :: s, u, by simp [h]⟩
    · rintro ⟨s, u, h⟩
      cases s with
      | nil =>
        left
        exact ⟨u, by simpa using h⟩
      | cons x s' =>
        right
        injection h with h1 h2
        exact ⟨s', u, h2⟩

theorem strContains_iff (hay pat : String) :
    strContains hay pat = true ↔ ∃ s t, s ++ pat.data ++ t = hay.data :=
  containsAux_iff pat.data hay.data

/-- C4: `is_relevant(body, title)` returns true iff the lowercased
concatenation of title and body contains at least one conflict keyword as a
substring AND at least one region keyword as a substring; plain substring
containment, case-insensitive via the lowercasing, with no word boundaries. -/
theorem is_relevant_iff_conflict_and_region (text title : String) :
    is_relevant text title = true ↔
      ((∃ kw ∈ CONFLICT_KEYWORDS,
          ∃ s t, s ++ kw.data ++ t = (pyLower (title ++ " " ++ text)).data) ∧
       (∃ kw ∈ IRAN_KEYWORDS,
          ∃ s t, s ++ kw.data ++ t = (pyLower (title ++ " " ++ text)).data)) := by
  simp only [is_relevant, Bool.and_eq_true, List.any_eq_true, strContains_iff]

/-- C3: a name whose normalization is a key of the static table resolves to
exactly that table entry, with the cache untouched and the external resolver
not invoked. -/
theorem get_coordinates_static (env : Env) (st : GeoState) (name : String)
    (c : Coord) (h : KNOWN_LOCATIONS.lookup (normalize name) = some c) :
    get_coordinates env st name = (some c, st, false) := by
  simp [get_coordinates, h]

theorem get_coordinates_static_witness :
    KNOWN_LOCATIONS.lookup (normalize "Tehran") = some ((35.6892 : ℚ), (51.3890 : ℚ)) ∧
    get_coordinates envTriv ⟨[]⟩ "Tehran" =
      (some ((35.6892 : ℚ), (51.3890 : ℚ)), ⟨[]⟩, false) :=
  ⟨rfl,
   get_coordinates_static envTriv ⟨[]⟩ "Tehran" (35.6892, 51.3890) rfl⟩

/-- C7: a second call with a name of the same normalized form returns the
same result, leaves the state unchanged, and never invokes the external
resolver — both positive and negative outcomes are cached, so the resolver
runs at most once per distinct normalized name. -/
theorem get_coordinates_idempotent (env : Env) (st : GeoState) (n1 n2 : String)
    (h : normalize n1 = normalize n2) :
    get_coordinates env (get_coordinates env st n1).2.1 n2 =
      ((get_coordinates env st n1).1, (get_coordinates env st n1).2.1, false) := by
  unfold get_coordinates
  rw [← h]
  cases hkl : KNOWN_LOCATIONS.lookup (normalize n1) with
  | some c => simp [hkl]
  | none =>
    cases hc : st.cache.lookup (normalize n1) with
    | some v => simp [hkl, hc]
    | none =>
      cases hf : KNOWN_LOCATIONS.find? (fun kc =>
          strContains (normalize n1) kc.1 || strContains kc.1 (normalize n1)) with
      | some kc => simp [hkl, hc, hf, List.lookup]
      | none =>
        cases hr : env.resolver (n1 ++ ", Iran") with
        | some c => simp [hkl, hc, hf, hr, List.lookup]
        | none => simp [hkl, hc, hf, hr, List.lookup]

theorem get_coordinates_idempotent_witness :
    normalize "Unknown Town" = normalize " unknown town " ∧
    get_coordinates envTriv (get_coordinates envTriv ⟨[]⟩ "Unknown Town").2.1
        " unknown town " =
      ((get_coordinates envTriv ⟨[]⟩ "Unknown Town").1,
        (get_coordinates envTriv ⟨[]⟩ "Unknown Town").2.1, false) :=
  ⟨by decide,
   get_coordinates_idempotent envTriv ⟨[]⟩ "Unknown Town" " unknown town " (by decide)⟩

/-- In any reachable state, a cache entry for the empty normalized query can
only hold Tehran's coordinates (written by the substring-containment branch,
which the empty query always satisfies at the first static entry). -/
theorem reachable_cache_empty_key {st : GeoState} (h : Reachable st) :
    ∀ v, st.cache.lookup "" = some v → v = some ((35.6892 : ℚ), (51.3890 : ℚ)) := by
  induction h with
  | init => simp [List.lookup]
  | @step env n st _ ih =>
    unfold get_coordinates
    cases hkl : KNOWN_LOCATIONS.lookup (normalize n) with
    | some c => exact ih
    | none =>
      cases hc : st.cache.lookup (normalize n) with
      | some v => exact ih
      | none =>
        by_cases hn : normalize n = ""
        · rw [hn] at hkl hc ⊢
          rw [show KNOWN_LOCATIONS.find? (fun kc =>
                strContains "" kc.1 || strContains kc.1 "") =
              some ("tehran", (35.6892, 51.3890)) from rfl]
          intro v hv
          simp [List.lookup] at hv
          exact hv.symm
        · cases hf : KNOWN_LOCATIONS.find? (fun kc =>
              strContains (normalize n) kc.1 || strContains kc.1 (normalize n)) with
          | some kc =>
            intro v hv
            simp only [List.lookup] at hv
            rw [show (("" == normalize n) = false) from by
              simpa using fun he => hn he.symm] at hv
            exact ih v hv
          | none =>
            cases hr : env.resolver (n ++ ", Iran") with
            | some c =>
              intro v hv
              simp only [List.lookup] at hv
              rw [show (("" == normalize n) = false) from by
                simpa using fun he => hn he.symm] at hv
              exact ih v hv
            | none =>
              intro v hv
              simp only [List.lookup] at hv
              rw [show (("" == normalize n) = false) from by
                simpa using fun he => hn he.symm] at hv
              exact ih v hv

/-- C10: in any reachable state, a query that normalizes to the empty string
(empty or whitespace-only input) never yields the absent outcome: the empty
string is a substring of every static key, so the containment step matches
the first static entry and returns Tehran's coordinates without reaching the
external resolver. -/
theorem get_coordinates_empty_query (env : Env) (st : GeoState) (name : String)
    (hst : Reachable st) (h : normalize name = "") :
    (get_coordinates env st name).1 = some ((35.6892 : ℚ), (51.3890 : ℚ)) ∧
    (get_coordinates env st name).2.2 = false := by
  unfold get_coordinates
  rw [h]
  rw [show KNOWN_LOCATIONS.lookup "" = none from rfl]
  cases hc : st.cache.lookup "" with
  | some v =>
    rcases reachable_cache_empty_key hst v hc with rfl
    exact ⟨rfl, rfl⟩
  | none =>
    rw [show KNOWN_LOCATIONS.find? (fun kc =>
          strContains "" kc.1 || strContains kc.1 "") =
        some ("tehran", (35.6892, 51.3890)) from rfl]
    exact ⟨rfl, rfl⟩

theorem get_coordinates_empty_query_witness :
    normalize "   " = "" ∧
    (get_coordinates envTriv ⟨[]⟩ "   ").1 = some ((35.6892 : ℚ), (51.3890 : ℚ)) ∧
    (get_coordinates envTriv ⟨[]⟩ "   ").2.2 = false :=
  ⟨by decide,
   get_coordinates_empty_query envTriv ⟨[]⟩ "   " Reachable.init (by decide)⟩

theorem foldl_matches_eq (thr : Int) (ms : List String) (a : Int) :
    ms.foldl (fun r m =>
      match pyInt? m with
      | some num => if num < thr then max r num else r
      | none => r) a
      = (valuesBelow (ms.filterMap pyInt?) thr).foldl max a := by
  induction ms generalizing a with
  | nil => rfl
  | cons m ms ih =>
    simp only [List.foldl_cons, List.filterMap_cons]
    cases hm : pyInt? m with
    | none => exact ih a
    | some num =>
      by_cases hlt : num < thr
      · simp only [valuesBelow, List.filter_cons, hlt, decide_True, if_pos hlt,
          decide_eq_true_eq]
        simp only [hlt, if_true]
        exact ih (max a num)
      · simp only [valuesBelow, List.filter_cons, if_neg hlt]
        simp only [hlt, decide_False, if_false]
        exact ih a

theorem extract_count_eq (findall : String → String → List String)
    (text : String) (patterns : List String) (thr : Int) :
    extract_count findall text patterns thr =
      maxOr0 (valuesBelow (matchedValues findall patterns text) thr) := by
  suffices h : ∀ a, patterns.foldl (fun result pattern =>
      (findall pattern text).foldl (fun result m =>
        match pyInt? m with
        | some num => if num < thr then max result num else result
        | none => result) result) a
      = (valuesBelow (matchedValues findall patterns text) thr).foldl max a from
    h 0
  induction patterns with
  | nil => intro a; rfl
  | cons p ps ih =>
    intro a
    have h1 : matchedValues findall (p :: ps) text
        = (findall p text).filterMap pyInt? ++ matchedValues findall ps text := by
      simp [matchedValues]
    have h2 : valuesBelow ((findall p text).filterMap pyInt?
          ++ matchedValues findall ps text) thr
        = valuesBelow ((findall p text).filterMap pyInt?) thr
          ++ valuesBelow (matchedValues findall ps text) thr := by
      simp [valuesBelow]
    rw [List.foldl_cons, foldl_matches_eq, h1, h2, List.foldl_append]
    exact ih _

theorem le_foldl_max (l : List Int) (a : Int) : a ≤ l.foldl max a := by
  induction l generalizing a with
  | nil => exact le_refl a
  | cons b t ih => exact le_trans (le_max_left a b) (ih (max a b))

theorem mem_le_foldl_max (l : List Int) (a : Int) :
    ∀ v ∈ l, v ≤ l.foldl max a := by
  induction l generalizing a with
  | nil => intro v hv; cases hv
  | cons b t ih =>
    intro v hv
    rcases List.mem_cons.mp hv with rfl | hv
    · exact le_trans (le_max_right a v) (le_foldl_max t (max a v))
    · exact ih (max a b) v hv

theorem foldl_max_eq_or_mem (l : List Int) (a : Int) :
    l.foldl max a = a ∨ l.foldl max a ∈ l := by
  induction l generalizing a with
  | nil => exact Or.inl rfl
  | cons b t ih =>
    rcases ih (max a b) with h | h
    · rcases max_choice a b with hm | hm
      · exact Or.inl (by rw [List.foldl_cons, h, hm])
      · exact Or.inr (by rw [List.foldl_cons, h, hm]; exact List.mem_cons_self b t)
    · exact Or.inr (List.mem_cons_of_mem b h)

/-- C1: `extract_killed`/`extract_wounded` return the maximum, over all
matches of all patterns, of the captured integers strictly below the sanity
ceiling (10000 for killed, 50000 for wounded) and 0 when no match captures
such an integer; values at or above the ceiling are discarded (filtered
out), never clamped and never summed — matches capturing 12 and 15 yield
15, not 27, and a single wounded match of 50000 yields 0. -/
theorem extract_counts_are_max_below_ceiling :
    (∀ (env : Env) (text : String),
      extract_killed env text =
        maxOr0 (valuesBelow (matchedValues env.findall CASUALTY_PATTERNS text) 10000) ∧
      extract_wounded env text =
        maxOr0 (valuesBelow (matchedValues env.findall WOUNDED_PATTERNS text) 50000)) ∧
    (∀ vals : List Int,
      (∀ v ∈ vals, v ≤ maxOr0 vals) ∧ (maxOr0 vals = 0 ∨ maxOr0 vals ∈ vals)) ∧
    extract_killed envEx1 "12 killed while the death toll reached 15" = 15 ∧
    extract_wounded envEx2 "50,000 wounded" = 0 :=
  ⟨fun env text => ⟨extract_count_eq _ _ _ _, extract_count_eq _ _ _ _⟩,
   fun vals => ⟨mem_le_foldl_max vals 0, foldl_max_eq_or_mem vals 0⟩,
   by decide, by decide⟩

theorem mem_insertLen (a x : String) (l : List String) :
    a ∈ insertLen x l ↔ a = x ∨ a ∈ l := by
  induction l with
  | nil => simp [insertLen]
  | cons y ys ih =>
    by_cases h : y.length ≤ x.length
    · simp [insertLen, h]
    · simp [insertLen, h, ih]
      tauto

theorem mem_sortLenDesc (a : String) (l : List String) :
    a ∈ sortLenDesc l ↔ a ∈ l := by
  induction l with
  | nil => simp [sortLenDesc]
  | cons x xs ih => simp [sortLenDesc, mem_insertLen, ih]

theorem pairwise_insertLen (x : String) (l : List String)
    (h : l.Pairwise (fun a b => b.length ≤ a.length)) :
    (insertLen x l).Pairwise (fun a b => b.length ≤ a.length) := by
  induction l with
  | nil => simp [insertLen]
  | cons y ys ih =>
    by_cases hxy : y.length ≤ x.length
    · rw [insertLen, if_pos hxy]
      refine List.Pairwise.cons ?_ h
      intro b hb
      rcases List.mem_cons.mp hb with rfl | hb
      · exact hxy
      · exact le_trans (List.rel_of_pairwise_cons h hb) hxy
    · rw [insertLen, if_neg hxy]
      refine List.Pairwise.cons ?_ (ih h.tail)
      intro b hb
      rcases (mem_insertLen b x ys).mp hb with rfl | hb
      · exact le_of_not_le hxy
      · exact List.rel_of_pairwise_cons h hb

theorem pairwise_sortLenDesc (l : List String) :
    (sortLenDesc l).Pairwise (fun a b => b.length ≤ a.length) := by
  induction l with
  | nil => exact List.Pairwise.nil
  | cons x xs ih => exact pairwise_insertLen x (sortLenDesc xs) ih

theorem find?_sorted_is_max {p : String → Bool} {l : List String}
    (hs : l.Pairwise (fun a b => b.length ≤ a.length)) {k : String}
    (hf : l.find? p = some k) :
    ∀ k' ∈ l, p k' = true → k'.length ≤ k.length := by
  induction l with
  | nil => intro k' hk'; cases hk'
  | cons x xs ih =>
    intro k' hk' hp'
    cases hpx : p x with
    | true =>
      rw [List.find?_cons_of_pos _ hpx] at hf
      injection hf with hf
      subst hf
      rcases List.mem_cons.mp hk' with rfl | hk'
      · exact le_refl _
      · exact List.rel_of_pairwise_cons hs hk'
    | false =>
      rw [List.find?_cons_of_neg _ (by simp [hpx])] at hf
      rcases List.mem_cons.mp hk' with rfl | hk'
      · rw [hpx] at hp'; cases hp'
      · exact ih hs.tail hf k' hk' hp'

/-- C8: when the lowercased text contains at least one gazetteer key, there
is a contained key of maximal length such that `extract_location` returns
its Title-Cased form, independently of the fallback-regex environment and of
the geocode cache, which is left untouched — the prepositional fallback is
reached only when no gazetteer key is contained. -/
theorem extract_location_longest_gazetteer (text : String)
    (h : (KNOWN_LOCATIONS.map Prod.fst).any
        (fun k => strContains (pyLower text) k) = true) :
    ∃ k ∈ KNOWN_LOCATIONS.map Prod.fst,
      strContains (pyLower text) k = true ∧
      (∀ k' ∈ KNOWN_LOCATIONS.map Prod.fst,
        strContains (pyLower text) k' = true → k'.length ≤ k.length) ∧
      ∀ (env' : Env) (st' : GeoState),
        extract_location env' st' text = (some (pyTitle k), st') := by
  rcases List.any_eq_true.mp h with ⟨k0, hk0, hk0c⟩
  have hsome : ((sortLenDesc (KNOWN_LOCATIONS.map Prod.fst)).find?
      (fun location => strContains (pyLower text) location)).isSome := by
    rw [List.find?_isSome]
    exact ⟨k0, (mem_sortLenDesc k0 _).mpr hk0, hk0c⟩
  rcases Option.isSome_iff_exists.mp hsome with ⟨k, hk⟩
  refine ⟨k, ?_, ?_, ?_, ?_⟩
  · exact (mem_sortLenDesc k _).mp (List.mem_of_find?_eq_some hk)
  · exact List.find?_some hk
  · intro k' hk' hc'
    exact find?_sorted_is_max (pairwise_sortLenDesc _) hk k'
      ((mem_sortLenDesc k' _).mpr hk') hc'
  · intro env' st'
    unfold extract_location
    rw [hk]

theorem findSome?_first {α β : Type} (fs : List (α → Option β)) (x : α) (b : β)
    (h : fs.findSome? (fun f => f x) = some b) :
    ∃ i, ∃ hi : i < fs.length,
      fs.get ⟨i, hi⟩ x = some b ∧
        ∀ j (hj : j < i), fs.get ⟨j, by omega⟩ x = none := by
  induction fs with
  | nil => simp [List.findSome?] at h
  | cons f fs ih =>
    cases hf : f x with
    | some b' =>
      simp only [List.findSome?, hf, Option.some.injEq] at h
      refine ⟨0, by simp, ?_, ?_⟩
      · simpa [hf] using h
      · intro j hj
        exact absurd hj (Nat.not_lt_zero j)
    | none =>
      simp only [List.findSome?, hf] at h
      rcases ih h with ⟨i, hi, hmain, hbefore⟩
      refine ⟨i + 1, by simpa using Nat.succ_lt_succ hi, ?_, ?_⟩
      · simpa using hmain
      · intro j hj
        cases j with
        | zero => simpa using hf
        | succ j' => simpa using hbefore j' (by omega)

/-- C9: `parse_date` is total and never fails: an input whose first ten
characters have the ISO digits-and-dashes shape is returned as exactly those
ten characters; otherwise the fixed ordered format list is tried on the
stripped input and the first format that parses determines the `YYYY-MM-DD`
result; an empty input, or one no format parses, yields the current UTC
date. -/
theorem parse_date_total_spec (env : Env) (s : String) :
    (s = "" → parse_date env s = env.today) ∧
    (s ≠ "" → (10 ≤ s.length && isoShape s) = true →
      parse_date env s = ⟨s.data.take 10⟩) ∧
    (s ≠ "" → (10 ≤ s.length && isoShape s) = false →
      (firstParse (stripL s.data) = none → parse_date env s = env.today) ∧
      (∀ y m d, firstParse (stripL s.data) = some (y, m, d) →
        parse_date env s = fmtYmd y m d ∧
        ∃ i, ∃ hi : i < dateFormats.length,
          dateFormats.get ⟨i, hi⟩ (stripL s.data) = some (y, m, d) ∧
            ∀ j (hj : j < i),
              dateFormats.get ⟨j, by omega⟩ (stripL s.data) = none)) := by
  refine ⟨?_, ?_, ?_⟩
  · intro h
    simp [parse_date, h]
  · intro h1 h2
    simp [parse_date, h1, h2]
  · intro h1 h2
    constructor
    · intro hf
      simp [parse_date, h1, h2, hf]
    · intro y m d hf
      refine ⟨by simp [parse_date, h1, h2, hf], ?_⟩
      exact findSome?_first dateFormats (stripL s.data) (y, m, d) hf

theorem parse_date_total_spec_witness :
    parse_date envToday "Fri, 20 Jun 2025 10:30:00 GMT" = "2025-06-20" := by
  have h := ((parse_date_total_spec envToday
      "Fri, 20 Jun 2025 10:30:00 GMT").2.2 (by decide) (by decide)).2
      2025 6 20 (by decide)
  exact h.1.trans (by decide)

theorem extract_location_longest_gazetteer_witness :
    ((KNOWN_LOCATIONS.map Prod.fst).any
        (fun k => strContains (pyLower "Israel strikes Bandar Abbas") k) = true) ∧
    ∃ k ∈ KNOWN_LOCATIONS.map Prod.fst,
      strContains (pyLower "Israel strikes Bandar Abbas") k = true ∧
      (∀ k' ∈ KNOWN_LOCATIONS.map Prod.fst,
        strContains (pyLower "Israel strikes Bandar Abbas") k' = true →
          k'.length ≤ k.length) ∧
      ∀ (env' : Env) (st' : GeoState),
        extract_location env' st' "Israel strikes Bandar Abbas" =
          (some (pyTitle k), st') :=
  ⟨by decide,
   extract_location_longest_gazetteer "Israel strikes Bandar Abbas" (by decide)⟩

/-- C5: `incident_from_feed_entry` and `parse_article` return an incident
exactly when the relevance classifier accepts the text AND a location is
extracted AND that location resolves to coordinates (for `parse_article`
additionally requiring a nonempty title and body); in every other case they
return none, and a returned incident always carries the resolved
coordinates — no partial incident lacking coordinates is constructed. -/
theorem incident_construction_guarded :
    (∀ (env : Env) (st : GeoState) (entry : FeedEntry) (sn : Option String)
        (selfName : String),
      ((incident_from_feed_entry env st entry sn selfName).1.isSome = true ↔
        is_relevant entry.summary entry.title = true ∧
        ∃ l st1, locate2 env st entry.title entry.summary = (some l, st1) ∧
          (get_coordinates env st1 l).1.isSome = true) ∧
      (∀ inc, (incident_from_feed_entry env st entry sn selfName).1 = some inc →
        ∃ l st1 c st2 b,
          locate2 env st entry.title entry.summary = (some l, st1) ∧
          get_coordinates env st1 l = (some c, st2, b) ∧
          inc.location = l ∧ inc.latitude = c.1 ∧ inc.longitude = c.2)) ∧
    (∀ (env : Env) (st : GeoState) (title text : String)
        (timeAttr : Option String) (url selfName : String),
      ((parse_article env st title text timeAttr url selfName).1.isSome = true ↔
        title ≠ "" ∧ text ≠ "" ∧ is_relevant text title = true ∧
        ∃ l st1, locate2 env st title text = (some l, st1) ∧
          (get_coordinates env st1 l).1.isSome = true) ∧
      (∀ inc, (parse_article env st title text timeAttr url selfName).1 = some inc →
        ∃ l st1 c st2 b,
          locate2 env st title text = (some l, st1) ∧
          get_coordinates env st1 l = (some c, st2, b) ∧
          inc.location = l ∧ inc.latitude = c.1 ∧ inc.longitude = c.2)) := by
  constructor
  · intro env st entry sn selfName
    cases hrel : is_relevant entry.summary entry.title with
    | false =>
      constructor
      · simp only [incident_from_feed_entry, hrel]
        simp
      · intro inc hinc
        simp only [incident_from_feed_entry, hrel] at hinc
        simp at hinc
    | true =>
      rcases hloc : locate2 env st entry.title entry.summary with ⟨ol, st1⟩
      cases ol with
      | none =>
        constructor
        · simp only [incident_from_feed_entry, hrel, hloc]
          simp [hloc]
        · intro inc hinc
          simp only [incident_from_feed_entry, hrel, hloc] at hinc
          simp at hinc
      | some l =>
        rcases hco : get_coordinates env st1 l with ⟨oc, st2, b⟩
        cases oc with
        | none =>
          constructor
          · simp only [incident_from_feed_entry, hrel, hloc, hco]
            simp [hloc, hco]
          · intro inc hinc
            simp only [incident_from_feed_entry, hrel, hloc, hco] at hinc
            simp at hinc
        | some c =>
          constructor
          · simp only [incident_from_feed_entry, hrel]
            simp only [hloc, hco]
            simp
            exact ⟨l, st1, ⟨rfl, rfl⟩, by simp [hco]⟩
          · intro inc hinc
            simp only [incident_from_feed_entry, hrel, Bool.not_true,
              Bool.false_eq_true, if_false, hloc, hco,
              Option.some.injEq] at hinc
            exact ⟨l, st1, c, st2, b, rfl, hco, by rw [← hinc],
              by rw [← hinc], by rw [← hinc]⟩
  · intro env st title text timeAttr url selfName
    by_cases htitle : title = ""
    · constructor
      · simp [parse_article, htitle]
      · intro inc hinc
        simp [parse_article, htitle] at hinc
    · by_cases htext : text = ""
      · constructor
        · simp [parse_article, htitle, htext]
        · intro inc hinc
          simp [parse_article, htitle, htext] at hinc
      · cases hrel : is_relevant text title with
        | false =>
          constructor
          · simp [parse_article, htitle, htext, hrel]
          · intro inc hinc
            simp [parse_article, htitle, htext, hrel] at hinc
        | true =>
          rcases hloc : locate2 env st title text with ⟨ol, st1⟩
          cases ol with
          | none =>
            constructor
            · simp only [parse_article, htitle, htext, hrel, hloc]
              simp [htitle, htext, hloc]
            · intro inc hinc
              simp only [parse_article, hrel, hloc] at hinc
              simp [htitle, htext] at hinc
          | some l =>
            rcases hco : get_coordinates env st1 l with ⟨oc, st2, b⟩
            cases oc with
            | none =>
              constructor
              · simp only [parse_article, htitle, htext, hrel, hloc, hco]
                simp [htitle, htext, hloc, hco]
              · intro inc hinc
                simp only [parse_article, hrel, hloc, hco] at hinc
                simp [htitle, htext] at hinc
            | some c =>
              constructor
              · simp only [parse_article, hrel]
                simp only [hloc, hco]
                simp [htitle, htext]
                exact ⟨l, st1, ⟨rfl, rfl⟩, by simp [hco]⟩
              · intro inc hinc
                simp only [parse_article, hrel, Bool.not_true,
                  Bool.or_false, if_neg htitle, hloc, hco] at hinc
                rw [show (decide (text = "") = false) from by simp [htext]]
                  at hinc
                simp only [Bool.false_eq_true, if_false,
                  Option.some.injEq] at hinc
                exact ⟨l, st1, c, st2, b, rfl, hco, by rw [← hinc],
                  by rw [← hinc], by rw [← hinc]⟩

theorem incident_construction_guarded_witness :
    (incident_from_feed_entry envToday ⟨[]⟩ entryEx none "Src").1.isSome = true :=
  ((incident_construction_guarded.1 envToday ⟨[]⟩ entryEx none "Src").1).mpr
    ⟨by decide, "Tehran", ⟨[]⟩, by decide, by decide⟩

theorem dedupSeen_foldl (l : List BombingIncident) (acc : List BombingIncident)
    (seen : List String) :
    l.foldl (fun acc incident =>
      if acc.2.contains (normTitle incident) then acc
      else (acc.1 ++ [incident], normTitle incident :: acc.2)) (acc, seen)
      = (acc ++ dedupSeen seen l, seenAfter seen l) := by
  induction l generalizing acc seen with
  | nil => simp [dedupSeen, seenAfter]
  | cons x xs ih =>
    by_cases h : seen.contains (normTitle x)
    · simp only [List.foldl_cons, dedupSeen, seenAfter, h, if_true]
      exact ih acc seen
    · simp only [List.foldl_cons, dedupSeen, seenAfter, h, if_false,
        Bool.false_eq_true]
      rw [ih (acc ++ [x]) (normTitle x :: seen)]
      simp

theorem dedupSeen_append (l1 l2 : List BombingIncident) (seen : List String) :
    dedupSeen seen (l1 ++ l2)
      = dedupSeen seen l1 ++ dedupSeen (seenAfter seen l1) l2 := by
  induction l1 generalizing seen with
  | nil => simp [dedupSeen, seenAfter]
  | cons x xs ih =>
    by_cases h : seen.contains (normTitle x)
    · simp only [List.cons_append, dedupSeen, seenAfter, h, if_true]
      exact ih seen
    · simp only [List.cons_append, dedupSeen, seenAfter, h, if_false,
        Bool.false_eq_true, List.cons_append]
      simp only [List.append_eq]
      rw [ih (normTitle x :: seen)]

theorem seenAfter_append (l1 l2 : List BombingIncident) (seen : List String) :
    seenAfter seen (l1 ++ l2) = seenAfter (seenAfter seen l1) l2 := by
  induction l1 generalizing seen with
  | nil => simp [seenAfter]
  | cons x xs ih =>
    by_cases h : seen.contains (normTitle x)
    · simp only [List.cons_append, seenAfter, h, if_true]
      exact ih seen
    · simp only [List.cons_append, seenAfter, h, if_false, Bool.false_eq_true]
      exact ih (normTitle x :: seen)

theorem scrape_all_foldl (results : List (Except String (List BombingIncident)))
    (acc : List BombingIncident) (seen : List String) :
    results.foldl (fun acc result =>
      match result with
      | .ok incs =>
        incs.foldl (fun acc incident =>
          if acc.2.contains (normTitle incident) then acc
          else (acc.1 ++ [incident], normTitle incident :: acc.2)) acc
      | .error _ => acc) (acc, seen)
      = (acc ++ dedupSeen seen (flattenOk results),
         seenAfter seen (flattenOk results)) := by
  induction results generalizing acc seen with
  | nil => simp [flattenOk, dedupSeen, seenAfter]
  | cons r rs ih =>
    cases r with
    | error e =>
      simp only [List.foldl_cons, flattenOk, List.foldr_cons]
      exact ih acc seen
    | ok l =>
      simp only [List.foldl_cons, flattenOk, List.foldr_cons]
      rw [dedupSeen_foldl, ih]
      rw [show (rs.foldr (fun r acc =>
          match r with
          | .ok l => l ++ acc
          | .error _ => acc) [] : List BombingIncident) = flattenOk rs from rfl]
      rw [dedupSeen_append, seenAfter_append]
      simp

theorem dedupSeen_eq_dedupByTitle (l : List BombingIncident) (seen : List String) :
    dedupSeen seen l
      = dedupByTitle (l.filter (fun y => !seen.contains (normTitle y))) := by
  induction l generalizing seen with
  | nil => simp [dedupSeen, dedupByTitle]
  | cons x xs ih =>
    by_cases h : seen.contains (normTitle x)
    · simp only [dedupSeen, h, if_true, List.filter_cons, Bool.not_true,
        Bool.false_eq_true, if_false]
      exact ih seen
    · simp only [dedupSeen, h, if_false, Bool.false_eq_true, List.filter_cons,
        Bool.not_false, if_true]
      rw [ih (normTitle x :: seen), dedupByTitle, List.filter_filter]
      have hfe : List.filter
            (fun y => !(normTitle x :: seen).contains (normTitle y)) xs
          = List.filter (fun a =>
              decide (normTitle a ≠ normTitle x) &&
                !seen.contains (normTitle a)) xs := by
        apply List.filter_congr
        intro y _
        cases hxy : normTitle y == normTitle x with
        | true =>
          simp [List.contains_cons, hxy, eq_of_beq hxy]
        | false =>
          simp [List.contains_cons, hxy, ne_of_beq_false hxy]
      rw [hfe]

/-- C2: `scrape_all` merging deduplicates the concatenation of the
successful per-source result lists by normalized (lowercased, stripped)
title, keeping the first occurrence of each key in arrival order and
dropping later equal-keyed incidents; a source whose task ended in an
exception contributes nothing.  Concretely, one failed source, one source
with two same-titled incidents and one source with a distinct title yield
exactly two incidents. -/
theorem scrape_all_dedup_spec :
    (∀ results, scrape_all_dedup results = dedupByTitle (flattenOk results)) ∧
    scrape_all_dedup
        [.error "timeout",
         .ok [mkInc "Strike hits Tehran", mkInc "  strike HITS tehran  "],
         .ok [mkInc "Explosion reported in Isfahan"]] =
      [mkInc "Strike hits Tehran", mkInc "Explosion reported in Isfahan"] := by
  constructor
  · intro results
    show (results.foldl _ ([], [])).1 = _
    rw [scrape_all_foldl]
    simp only [List.nil_append]
    rw [dedupSeen_eq_dedupByTitle]
    congr 1
    apply List.filter_eq_self.mpr
    intro a _
    simp [List.contains]
  · decide

theorem filterMap_itemEntry (l : List (List Char)) :
    l.filterMap itemEntry?
      = (l.filter (fun it => !(itemRawTitle it).isEmpty)).map mkItemEntry := by
  induction l with
  | nil => rfl
  | cons it l ih =>
    by_cases h : (itemRawTitle it).isEmpty
    · simp [itemEntry?, h, ih]
    · simp [itemEntry?, h, ih]

/-- C6 counterexample: an input with exactly one RSS `<item>` block (which
lacks a title) and one titled Atom `<entry>` still consults the Atom
fallback and yields that Atom entry — so the fallback is not restricted to
inputs with zero `<item>` blocks, and the output is not one entry per titled
item (zero here). -/
theorem parse_rss_atom_fallback_on_untitled_items :
    (findBlocks ("<item>".data) ("</item>".data) xmlC6.data).length = 1 ∧
    ((findBlocks ("<item>".data) ("</item>".data) xmlC6.data).filter
      (fun it => !(itemRawTitle it).isEmpty)).length = 0 ∧
    parse_rss_entries xmlC6 =
      [{ title := "T", link := "", summary := "", date := "", source := "",
         source_url := "" }] := by
  refine ⟨by decide, by decide, by decide⟩

/-- C6 (amended): `parse_rss_entries` drops any RSS item lacking a nonempty
title; when at least one titled `<item>` block exists, the output is exactly
one entry per titled item, in input order, and the Atom fallback is not
consulted; the Atom `<entry>` fallback is consulted exactly when the RSS
pass produced zero entries — i.e. when no titled `<item>` block exists
(including inputs that do contain `<item>` blocks, all untitled). -/
theorem parse_rss_entries_titled_items (xml : String) :
    ((findBlocks ("<item>".data) ("</item>".data) xml.data).any
        (fun it => !(itemRawTitle it).isEmpty) = true →
      parse_rss_entries xml =
        ((findBlocks ("<item>".data) ("</item>".data) xml.data).filter
          (fun it => !(itemRawTitle it).isEmpty)).map mkItemEntry) ∧
    ((findBlocks ("<item>".data) ("</item>".data) xml.data).all
        (fun it => (itemRawTitle it).isEmpty) = true →
      parse_rss_entries xml =
        (findBlocks ("<entry>".data) ("</entry>".data) xml.data).filterMap
          atomEntry?) := by
  constructor
  · intro h
    unfold parse_rss_entries
    rw [filterMap_itemEntry]
    rcases List.any_eq_true.mp h with ⟨it, hit, htitled⟩
    have hmem : it ∈ (findBlocks ("<item>".data) ("</item>".data)
        xml.data).filter (fun it => !(itemRawTitle it).isEmpty) :=
      List.mem_filter.mpr ⟨hit, htitled⟩
    have hne : ((findBlocks ("<item>".data) ("</item>".data)
        xml.data).filter (fun it => !(itemRawTitle it).isEmpty)).map
          mkItemEntry ≠ [] := by
      simp only [ne_eq, List.map_eq_nil_iff]
      exact List.ne_nil_of_mem hmem
    rw [if_neg (by simpa [List.isEmpty_iff] using hne)]
  · intro h
    unfold parse_rss_entries
    rw [filterMap_itemEntry]
    have hf : (findBlocks ("<item>".data) ("</item>".data) xml.data).filter
        (fun it => !(itemRawTitle it).isEmpty) = [] := by
      apply List.filter_eq_nil_iff.mpr
      intro a ha
      simp only [Bool.not_eq_eq_eq_not, Bool.not_true]
      simp only [List.all_eq_true] at h
      simpa using h a ha
    rw [hf]
    simp

theorem parse_rss_entries_titled_items_witness :
    parse_rss_entries xmlC6b =
      ((findBlocks ("<item>".data) ("</item>".data) xmlC6b.data).filter
        (fun it => !(itemRawTitle it).isEmpty)).map mkItemEntry :=
  (parse_rss_entries_titled_items xmlC6b).1 (by decide)

end War
